import Mathlib

/-!
Verification of the U-FinDI document-processing spec against the repository
source (a React front end whose Upload and Reviewer pages implement the
pipeline status simulation, per-field confidence display, and the field
correction flow).  Pure fragments of the TypeScript source are embedded as
Lean definitions; parts of the pipeline that exist only in the spec (the
orchestrator's confidence routing, the validation engine, the balance
checker) are modelled from the spec's words and marked as such.
-/

namespace UFinDI

/-- The document status union type of the source
(`DocFile.status` in the Upload page): one of
"uploading" | "classifying" | "extracting" | "validating" | "done" | "review". -/
inductive Status where
  | uploading
  | classifying
  | extracting
  | validating
  | done
  | review
deriving DecidableEq

/-- The stage list hard-coded in `simulateUpload`:
`const stages = ["classifying", "extracting", "validating", "done"]`.
Each stage is applied to the uploaded file in order by a scheduled timer. -/
def simulateUploadStages : List Status :=
  [Status.classifying, Status.extracting, Status.validating, Status.done]

/-- The successive statuses a file uploaded through `simulateUpload` takes:
it is created with status "uploading" and then receives each stage of
`simulateUploadStages` in order. -/
def simulateUploadStatusTrace : List Status :=
  Status.uploading :: simulateUploadStages

/-- The transition table of spec section 4.2, written from the spec's words
(refinement target for the source trace): intake/uploading → classifying →
extracting → validating → \x7bdone | review\x7d, with classifying → review on
low-confidence classification, extracting → review on executor failure, and
review → validating via explicit re-validation. -/
def specAllowedTransition : Status → Status → Bool
  | Status.uploading, Status.classifying => true
  | Status.classifying, Status.extracting => true
  | Status.classifying, Status.review => true
  | Status.extracting, Status.validating => true
  | Status.extracting, Status.review => true
  | Status.validating, Status.done => true
  | Status.validating, Status.review => true
  | Status.review, Status.validating => true
  | _, _ => false

/-- The list of adjacent pairs of a list: the transitions of a status trace. -/
def adjacentPairs : List Status → List (Status × Status)
  | a :: b :: t => (a, b) :: adjacentPairs (b :: t)
  | _ => []

/-- C1: every status transition performed by the source's `simulateUpload`
follows the spec's transition table: the trace
uploading → classifying → extracting → validating → done contains no skipped
and no regressing transition, starts at uploading and ends at done. -/
theorem uploadTrace_follows_spec_transitions :
    (adjacentPairs simulateUploadStatusTrace).all
        (fun p => specAllowedTransition p.1 p.2) = true
      ∧ simulateUploadStatusTrace.head? = some Status.uploading
      ∧ simulateUploadStatusTrace.getLast? = some Status.done := by
  decide

/-- The `Field` interface of the Reviewer page:
key, label, value (the extracted value), confidence (a number, displayed with
one decimal, embedded as a rational), and an optional `corrected` string
(`undefined` embedded as `none`). -/
structure Field where
  key : String
  label : String
  value : String
  confidence : ℚ
  corrected : Option String
deriving DecidableEq

/-- The `initialFields` constant of the Reviewer page: the eleven extracted
fields of the mock bank statement, none corrected. -/
def initialFields : List Field :=
  [⟨"account_holder", "Account Holder", "Rajesh Kumar Sharma", 98.2, none⟩,
   ⟨"bank_name", "Bank Name", "HDFC Bank Ltd.", 99.1, none⟩,
   ⟨"account_number", "Account Number", "XXXX XXXX 4521", 96.7, none⟩,
   ⟨"ifsc", "IFSC Code", "HDFC0001234", 97.8, none⟩,
   ⟨"statement_period", "Statement Period", "01 Jan 2025 – 31 Jan 2025", 95.3, none⟩,
   ⟨"opening_balance", "Opening Balance", "₹1,24,567.89", 93.4, none⟩,
   ⟨"closing_balance", "Closing Balance", "₹1,87,234.56", 91.2, none⟩,
   ⟨"total_credits", "Total Credits", "₹3,45,000.00", 88.7, none⟩,
   ⟨"total_debits", "Total Debits", "₹2,82,333.33", 87.9, none⟩,
   ⟨"salary_credit", "Salary Credit", "₹85,000.00", 72.4, none⟩,
   ⟨"employer", "Employer Name", "Infosys Technologies Ltd", 68.3, none⟩]

/-- The per-field transformation of the Reviewer's `saveEdit`: the field whose
key matches gets `corrected: editValue !== f.value ? editValue : undefined`;
every other field is returned unchanged. -/
def saveEditField (key editValue : String) (f : Field) : Field :=
  if f.key = key then
    { f with corrected := if editValue ≠ f.value then some editValue else none }
  else f

/-- The Reviewer's `saveEdit(key)`: maps `saveEditField` over the field list
(`setFields(prev => prev.map(f => f.key === key ? \x7b...\x7d : f))`). -/
def saveEdit (key editValue : String) (fs : List Field) : List Field :=
  fs.map (saveEditField key editValue)

/-- C3: a saved correction leaves every field's extracted `value` and original
`confidence` unchanged across the whole list, and for the targeted field with
a genuinely different edit value it sets `corrected` to that value — history
is never deleted. -/
theorem saveEdit_preserves_value_and_confidence (key editValue : String)
    (fs : List Field) (f : Field) :
    ((saveEdit key editValue fs).map fun g => (g.value, g.confidence))
        = (fs.map fun g => (g.value, g.confidence))
      ∧ (f.key = key → editValue ≠ f.value →
          (saveEditField key editValue f).corrected = some editValue
            ∧ (saveEditField key editValue f).value = f.value
            ∧ (saveEditField key editValue f).confidence = f.confidence) := by
  constructor
  · simp only [saveEdit, List.map_map]
    apply List.map_congr_left
    intro a _
    unfold saveEditField
    by_cases h : a.key = key <;> simp [h]
  · intro hk hne
    unfold saveEditField
    simp [hk, hne]

/-- Witness for C3 at a concrete input: correcting the employer field of the
source's field list to a new value keeps all values and confidences. -/
theorem saveEdit_preserves_value_and_confidence_witness :
    (("employer" : String) = "employer" ∧ ("Wipro Ltd" : String) ≠ "Infosys Technologies Ltd")
      ∧ ((saveEdit "employer" "Wipro Ltd" initialFields).map fun g => (g.value, g.confidence))
          = (initialFields.map fun g => (g.value, g.confidence))
      ∧ (saveEditField "employer" "Wipro Ltd"
            ⟨"employer", "Employer Name", "Infosys Technologies Ltd", 68.3, none⟩).corrected
          = some "Wipro Ltd" := by
  refine ⟨by decide, ?_, ?_⟩
  · exact (saveEdit_preserves_value_and_confidence "employer" "Wipro Ltd" initialFields
      ⟨"employer", "Employer Name", "Infosys Technologies Ltd", 68.3, none⟩).1
  · exact ((saveEdit_preserves_value_and_confidence "employer" "Wipro Ltd" initialFields
      ⟨"employer", "Employer Name", "Infosys Technologies Ltd", 68.3, none⟩).2
      rfl (by decide)).1

/-- C7: saving an edit whose value equals the field's original extracted
value records no correction — the field's `corrected` marker is cleared
(`editValue !== f.value` is false, so `corrected` is set to `undefined`),
leaving the field exactly in its uncorrected state. -/
theorem identical_edit_clears_corrected (key : String) (f : Field)
    (hk : f.key = key) :
    saveEditField key f.value f = { f with corrected := none } := by
  unfold saveEditField
  simp [hk]

/-- Witness for C7 at a concrete input: re-saving the employer field's own
extracted value on an already-corrected copy clears the correction. -/
theorem identical_edit_clears_corrected_witness :
    saveEditField "employer" "Infosys Technologies Ltd"
        ⟨"employer", "Employer Name", "Infosys Technologies Ltd", 68.3, some "Wipro Ltd"⟩
      = ⟨"employer", "Employer Name", "Infosys Technologies Ltd", 68.3, none⟩ :=
  identical_edit_clears_corrected "employer"
    ⟨"employer", "Employer Name", "Infosys Technologies Ltd", 68.3, some "Wipro Ltd"⟩ rfl

/-- C9: correcting a field to any value and then saving a second edit equal to
the field's original extracted value restores the field to its uncorrected
state: each save compares the edit against the original `value`, never against
the previous correction. -/
theorem second_save_of_original_restores_uncorrected (key v : String) (f : Field)
    (hk : f.key = key) :
    saveEditField key f.value (saveEditField key v f) = { f with corrected := none } := by
  unfold saveEditField
  by_cases h : v ≠ f.value <;> simp [hk, h]

/-- Witness for C9 at a concrete input: correcting the employer field to
"Wipro Ltd" and then re-saving the original value round-trips to the
uncorrected field. -/
theorem second_save_of_original_restores_uncorrected_witness :
    saveEditField "employer" "Infosys Technologies Ltd"
        (saveEditField "employer" "Wipro Ltd"
          ⟨"employer", "Employer Name", "Infosys Technologies Ltd", 68.3, none⟩)
      = ⟨"employer", "Employer Name", "Infosys Technologies Ltd", 68.3, none⟩ :=
  second_save_of_original_restores_uncorrected "employer" "Wipro Ltd"
    ⟨"employer", "Employer Name", "Infosys Technologies Ltd", 68.3, none⟩ rfl

/-- C10: `saveEdit` is a pointwise map over the field list; a field whose key
differs from the edited key is returned completely unchanged, and for any
field the transformation touches at most the `corrected` component — key,
label, value and confidence are untouched. -/
theorem saveEdit_frame (key editValue : String) (f : Field) (fs : List Field) :
    saveEdit key editValue fs = fs.map (saveEditField key editValue)
      ∧ (f.key ≠ key → saveEditField key editValue f = f)
      ∧ (saveEditField key editValue f).key = f.key
      ∧ (saveEditField key editValue f).label = f.label
      ∧ (saveEditField key editValue f).value = f.value
      ∧ (saveEditField key editValue f).confidence = f.confidence := by
  refine ⟨rfl, ?_, ?_, ?_, ?_, ?_⟩ <;>
    first
      | (intro h; unfold saveEditField; simp [h])
      | (unfold saveEditField; by_cases h : f.key = key <;> simp [h])

/-- Witness for C10 at a concrete input: editing key "employer" leaves the
bank-name field (a different key) unchanged, and leaves the employer field's
non-corrected components unchanged. -/
theorem saveEdit_frame_witness :
    (("bank_name" : String) ≠ "employer"
        ∧ saveEditField "employer" "Wipro Ltd"
              ⟨"bank_name", "Bank Name", "HDFC Bank Ltd.", 99.1, none⟩
            = ⟨"bank_name", "Bank Name", "HDFC Bank Ltd.", 99.1, none⟩)
      ∧ (saveEditField "employer" "Wipro Ltd"
            ⟨"employer", "Employer Name", "Infosys Technologies Ltd", 68.3, none⟩).confidence
          = (68.3 : ℚ) := by
  constructor
  · exact ⟨by decide,
      (saveEdit_frame "employer" "Wipro Ltd"
        ⟨"bank_name", "Bank Name", "HDFC Bank Ltd.", 99.1, none⟩ []).2.1 (by decide)⟩
  · exact (saveEdit_frame "employer" "Wipro Ltd"
      ⟨"employer", "Employer Name", "Infosys Technologies Ltd", 68.3, none⟩ []).2.2.2.2.2

/-- The Reviewer's `confidenceColor`:
`c >= 90 ? "text-success" : c >= 75 ? "text-warning" : "text-destructive"`. -/
def confidenceColor (c : ℚ) : String :=
  if c ≥ 90 then "text-success" else if c ≥ 75 then "text-warning" else "text-destructive"

/-- The Reviewer's `confidenceBg`:
`c >= 90 ? "bg-success/10" : c >= 75 ? "bg-warning/10" : "bg-destructive/10"`. -/
def confidenceBg (c : ℚ) : String :=
  if c ≥ 90 then "bg-success/10" else if c ≥ 75 then "bg-warning/10" else "bg-destructive/10"

/-- The Reviewer's low-confidence attention flag: the warning triangle is
rendered exactly when `field.confidence < 75`. -/
def lowConfidenceFlag (c : ℚ) : Bool :=
  if c < 75 then true else false

/-- The Upload page's confidence badge styling:
`file.confidence > 90 ? "bg-success/10 text-success" : "bg-warning/10 text-warning"`
— note the strict comparison, unlike the Reviewer's `>= 90`. -/
def uploadBadgeClass (c : ℚ) : String :=
  if c > 90 then "bg-success/10 text-success" else "bg-warning/10 text-warning"

/-- C6 counterexample: the classification is not applied consistently wherever
confidence is displayed. At confidence exactly 90 the Reviewer styles the
value as high ("text-success") but the Upload page's badge does not use its
success styling (it shows the warning styling), refuting the claimed
consistency. -/
theorem confidence_classification_inconsistent_at_90 :
    ¬ ((confidenceColor 90 = "text-success")
        ↔ (uploadBadgeClass 90 = "bg-success/10 text-success")) := by
  decide

/-- C6 amended: in the Reviewer, confidence c is styled high iff c ≥ 90,
medium iff 75 ≤ c < 90, and low iff c < 75, the background styling agrees
with the colour styling, and the attention flag fires exactly when c < 75;
the Upload page's badge, however, uses its success styling iff c > 90
(strict), so the two displays disagree exactly at 90 < c ≤ 90, i.e. c = 90. -/
theorem confidence_classification_amended (c : ℚ) :
    (confidenceColor c = "text-success" ↔ 90 ≤ c)
      ∧ (confidenceColor c = "text-warning" ↔ 75 ≤ c ∧ c < 90)
      ∧ (confidenceColor c = "text-destructive" ↔ c < 75)
      ∧ (confidenceBg c = "bg-success/10" ↔ confidenceColor c = "text-success")
      ∧ (confidenceBg c = "bg-warning/10" ↔ confidenceColor c = "text-warning")
      ∧ (confidenceBg c = "bg-destructive/10" ↔ confidenceColor c = "text-destructive")
      ∧ (lowConfidenceFlag c = true ↔ c < 75)
      ∧ (uploadBadgeClass c = "bg-success/10 text-success" ↔ 90 < c) := by
  unfold confidenceColor confidenceBg lowConfidenceFlag uploadBadgeClass
  by_cases h1 : c ≥ 90 <;> by_cases h2 : c ≥ 75 <;> by_cases h3 : c < 75 <;>
    by_cases h4 : c > 90 <;> simp [h1, h2, h3, h4] <;> linarith

/-- Witness for C6 amended at a concrete input: confidence 80 is styled
medium in the Reviewer, and 95 gets the Upload badge's success styling. -/
theorem confidence_classification_amended_witness :
    confidenceColor 80 = "text-warning"
      ∧ uploadBadgeClass 95 = "bg-success/10 text-success" :=
  ⟨(confidence_classification_amended 80).2.1.mpr (by norm_num),
   (confidence_classification_amended 95).2.2.2.2.2.2.2.mpr (by norm_num)⟩

/-- The value the Reviewer displays for a field (its source line reads
`field.corrected || field.value`): JavaScript's `||` falls through to
`field.value` when `corrected` is `undefined` — or the empty string, which is
falsy. -/
def displayedValue (f : Field) : String :=
  match f.corrected with
  | some s => if s = "" then f.value else s
  | none => f.value

/-- The value `startEdit` loads into the edit box (its source line reads
`setEditValue(field.corrected || field.value)`), with the same JavaScript
falsy semantics for the empty string. -/
def startEditInitValue (f : Field) : String :=
  match f.corrected with
  | some s => if s = "" then f.value else s
  | none => f.value

/-- C8 counterexample: a corrected value is not authoritative whenever it
exists. Correcting the employer field to the empty string stores
`corrected = some ""`, yet the displayed (and edit-box) value falls back to
the original extracted value, because JavaScript's `||` treats the empty
string as absent. -/
theorem empty_correction_not_authoritative :
    (saveEditField "employer" ""
          ⟨"employer", "Employer Name", "Infosys Technologies Ltd", 68.3, none⟩).corrected
        = some ""
      ∧ displayedValue (saveEditField "employer" ""
          ⟨"employer", "Employer Name", "Infosys Technologies Ltd", 68.3, none⟩)
        = "Infosys Technologies Ltd"
      ∧ ("Infosys Technologies Ltd" : String) ≠ "" := by
  decide

/-- C8 amended: the effective value consumed downstream (display and the edit
box) is the `corrected` value when one is present AND non-empty, and the
extracted `value` otherwise (when `corrected` is absent or the empty string);
display and `startEdit` agree on this rule everywhere. -/
theorem effective_value_amended (f : Field) (s : String) :
    (f.corrected = some s → s ≠ "" → displayedValue f = s)
      ∧ (f.corrected = none → displayedValue f = f.value)
      ∧ (f.corrected = some "" → displayedValue f = f.value)
      ∧ startEditInitValue f = displayedValue f := by
  refine ⟨?_, ?_, ?_, ?_⟩
  · intro hc hs
    unfold displayedValue
    simp [hc, hs]
  · intro hc
    unfold displayedValue
    simp [hc]
  · intro hc
    unfold displayedValue
    simp [hc]
  · unfold displayedValue startEditInitValue
    rfl

/-- Witness for C8 amended at a concrete input: a field corrected to
"Wipro Ltd" displays "Wipro Ltd", and an uncorrected field displays its
extracted value. -/
theorem effective_value_amended_witness :
    displayedValue
        ⟨"employer", "Employer Name", "Infosys Technologies Ltd", 68.3, some "Wipro Ltd"⟩
      = "Wipro Ltd"
      ∧ displayedValue
          ⟨"employer", "Employer Name", "Infosys Technologies Ltd", 68.3, none⟩
        = "Infosys Technologies Ltd" :=
  ⟨(effective_value_amended
      ⟨"employer", "Employer Name", "Infosys Technologies Ltd", 68.3, some "Wipro Ltd"⟩
      "Wipro Ltd").1 rfl (by decide),
   (effective_value_amended
      ⟨"employer", "Employer Name", "Infosys Technologies Ltd", 68.3, none⟩
      "").2.1 rfl⟩

/-- A validation check outcome: `name`, `passed` (boolean), as in the spec's
ValidationCheck entity and the Reviewer's hard-coded check objects. -/
structure ValidationCheck where
  name : String
  passed : Bool
deriving DecidableEq

/-- The four check outcomes hard-coded in the Reviewer's validation section:
balance continuity (pass), date sequencing (pass), salary/employer pattern
(fail), cross-document consistency (pass). -/
def sourceValidationChecks : List ValidationCheck :=
  [⟨"Balance continuity verified", true⟩,
   ⟨"Date sequencing valid", true⟩,
   ⟨"Salary matches employer pattern", false⟩,
   ⟨"Cross-document consistency", true⟩]

/-- Modelled from the spec: the configured classification-confidence
threshold (70). The pipeline orchestrator's review-routing is absent from
src — the source's `simulateUpload` advances through fixed stages with no
confidence branch — so the threshold comes from the spec's words. -/
def classificationThreshold : ℚ := 70

/-- Modelled from the spec: the classifying stage's routing, absent from src.
On low-confidence classification (below `classificationThreshold`) the
document goes directly to review with a failed "classification_confidence"
check; otherwise it proceeds to extracting with no check recorded. -/
def classifyRoute (conf : ℚ) : Status × List ValidationCheck :=
  if conf < classificationThreshold then
    (Status.review, [⟨"classification_confidence", false⟩])
  else
    (Status.extracting, [])

/-- C2: a document whose classification confidence is below the threshold 70
is routed directly from classifying to review with a failed
"classification_confidence" check, and never enters the extracting stage. -/
theorem lowConfidence_classification_routes_to_review (conf : ℚ)
    (h : conf < 70) :
    classifyRoute conf = (Status.review, [⟨"classification_confidence", false⟩])
      ∧ (classifyRoute conf).1 ≠ Status.extracting := by
  have hc : conf < classificationThreshold := h
  unfold classifyRoute
  simp [hc]

/-- Witness for C2 at the spec's example input: classification confidence 60
routes to review with the failed check. -/
theorem lowConfidence_classification_routes_to_review_witness :
    (60 : ℚ) < 70
      ∧ classifyRoute 60 = (Status.review, [⟨"classification_confidence", false⟩]) :=
  ⟨by norm_num, (lowConfidence_classification_routes_to_review 60 (by norm_num)).1⟩

/-- Modelled from the spec: the balance continuity check of the Confidence &
Validation Engine, absent from src (the source only hard-codes its outcome in
the Reviewer's check list). Amounts are exact currency values in minor units
(paise), embedded as integers; the check passes iff opening plus the sum of
the signed transaction amounts equals closing exactly. -/
def balanceContinuity (opening closing : ℤ) (txns : List ℤ) : Bool :=
  opening + txns.sum = closing

/-- The opening balance of the Reviewer's mock statement, ₹1,24,567.89,
in paise. -/
def sourceOpeningBalance : ℤ := 12456789

/-- The closing balance of the Reviewer's mock statement, ₹1,87,234.56,
in paise. -/
def sourceClosingBalance : ℤ := 18723456

/-- The signed transaction amounts of the Reviewer's hard-coded transaction
table, in paise: +₹85,000.00, −₹456.00, −₹32,500.00, −₹2,340.00,
+₹12,962.67. -/
def sourceTransactionAmounts : List ℤ :=
  [8500000, -45600, -3250000, -234000, 1296267]

/-- C4: the balance continuity check passes iff opening plus the exact sum of
the signed transaction amounts equals closing, with zero tolerance; moreover
the source's own transaction table reconciles, matching the hard-coded
passing "Balance continuity verified" check. -/
theorem balanceContinuity_iff_exact_sum (opening closing : ℤ) (txns : List ℤ) :
    (balanceContinuity opening closing txns = true ↔ opening + txns.sum = closing)
      ∧ balanceContinuity sourceOpeningBalance sourceClosingBalance
          sourceTransactionAmounts = true := by
  constructor
  · unfold balanceContinuity
    exact decide_eq_true_iff
  · decide

/-- Witness for C4 at the spec's example inputs: opening 100.00, closing
150.00 with transactions +85.00, −35.00 passes; with +85.00, −30.00 it
fails (sum 155.00 ≠ 150.00). -/
theorem balanceContinuity_iff_exact_sum_witness :
    balanceContinuity 10000 15000 [8500, -3500] = true
      ∧ balanceContinuity 10000 15000 [8500, -3000] = false :=
  ⟨(balanceContinuity_iff_exact_sum 10000 15000 [8500, -3500]).1.mpr (by decide),
   by decide⟩

/-- Modelled from the spec: a field's effective confidence for the validating
stage — corrected fields count as 100, uncorrected fields keep their
extraction confidence. The validation engine itself is absent from src. -/
def effectiveConfidence (f : Field) : ℚ :=
  match f.corrected with
  | some _ => 100
  | none => f.confidence

/-- Modelled from the spec: the validating stage's aggregate outcome, absent
from src. The document's outcome is done if all required checks pass and
every field's effective confidence is at or above the global minimum
threshold; otherwise it is review. -/
def validateOutcome (checks : List ValidationCheck) (fs : List Field) (θ : ℚ) : Status :=
  if (∀ c ∈ checks, c.passed = true) ∧ (∀ f ∈ fs, θ ≤ effectiveConfidence f) then
    Status.done
  else
    Status.review

/-- C5: the validating stage yields done iff every required check passed and
every field's effective confidence (corrected fields counting as 100) meets
the global minimum threshold, and the only other possible outcome is
review. -/
theorem validateOutcome_done_iff_all_pass_and_confident
    (checks : List ValidationCheck) (fs : List Field) (θ : ℚ) :
    (validateOutcome checks fs θ = Status.done
        ↔ (∀ c ∈ checks, c.passed = true) ∧ (∀ f ∈ fs, θ ≤ effectiveConfidence f))
      ∧ (validateOutcome checks fs θ = Status.done
          ∨ validateOutcome checks fs θ = Status.review) := by
  unfold validateOutcome
  by_cases h : (∀ c ∈ checks, c.passed = true) ∧ (∀ f ∈ fs, θ ≤ effectiveConfidence f)
  · rw [if_pos h]
    exact ⟨⟨fun _ => h, fun _ => rfl⟩, Or.inl rfl⟩
  · rw [if_neg h]
    exact ⟨⟨fun hc => absurd hc (by decide), fun hx => (h hx).elim⟩, Or.inr rfl⟩

/-- Witness for C5 at concrete inputs: with the source's hard-coded check
list (one check failed) no field list reaches done, while a fully passing
check list over the source's fields with threshold 0 yields done. -/
theorem validateOutcome_done_iff_all_pass_and_confident_witness :
    validateOutcome sourceValidationChecks initialFields 0 = Status.review
      ∧ validateOutcome [⟨"Balance continuity verified", true⟩] initialFields 0
        = Status.done := by
  constructor
  · rcases (validateOutcome_done_iff_all_pass_and_confident
        sourceValidationChecks initialFields 0).2 with h | h
    · exact absurd
        (((validateOutcome_done_iff_all_pass_and_confident
            sourceValidationChecks initialFields 0).1.mp h).1
          ⟨"Salary matches employer pattern", false⟩ (by decide))
        (by decide)
    · exact h
  · exact (validateOutcome_done_iff_all_pass_and_confident
        [⟨"Balance continuity verified", true⟩] initialFields 0).1.mpr
      ⟨by decide, by intro f hf; fin_cases hf <;> norm_num [effectiveConfidence]⟩

end UFinDI
